import Mathlib

/-!
Verification of the BibleNormalizer data-preparation scripts.

This file gives a shallow embedding of the two normalizer scripts
(`scripts/process_bible_json.py`, handling the shape (a)/(b) inputs, and
`scripts/process_your_bibles.py`, handling the shape (c) input) and proves
the specified properties of book-name canonicalization, verse-text cleanup,
the shape-sniffing parsers, and chapter emission counts.

Python strings are modelled as `String`/`List Char`; JSON documents as the
inductive `Json`; Python dicts as association lists in insertion order with
unique keys (the shape `json.load` produces); exceptions as `Except String`.
The character classes of the regexes (`\s`, `\w`, `\d`) and of `str.strip`
and `int()` are modelled over their ASCII parts; all inputs that occur in
the repository's data and in the claims are ASCII.
-/

/-! ## Python string primitives -/

/-- ASCII part of the whitespace class used by `\s`, `str.strip` and
`str.isspace`: space, tab, newline, carriage return, vertical tab, form feed. -/
def pyIsSpace (c : Char) : Bool :=
  c = ' ' || c = '\t' || c = '\n' || c = '\r' || c = Char.ofNat 11 || c = Char.ofNat 12

/-- ASCII part of the regex word class `\w`: alphanumeric or underscore. -/
def pyIsWordChar (c : Char) : Bool :=
  c.isAlphanum || c = '_'

/-- `re.sub(r"\s+", " ", s)` on a character list: every maximal run of
whitespace becomes a single space. -/
def collapseWs : List Char → List Char
  | [] => []
  | [c] => if pyIsSpace c then [' '] else [c]
  | c :: d :: rest =>
    if pyIsSpace c && pyIsSpace d then collapseWs (d :: rest)
    else (if pyIsSpace c then ' ' else c) :: collapseWs (d :: rest)

/-- `str.strip()` on a character list: drop whitespace from both ends. -/
def pyStrip (l : List Char) : List Char :=
  ((l.dropWhile pyIsSpace).reverse.dropWhile pyIsSpace).reverse

/-- Numeric value of a digit list (most significant first). -/
def digitsVal (l : List Char) : Nat :=
  l.foldl (fun n c => 10 * n + (c.toNat - 48)) 0

/-- Python `int(s)` for a string: optional surrounding whitespace, optional
sign, then a nonempty digit run; `none` models the `ValueError` raise.
(The underscore digit separators `int` also accepts never occur here.) -/
def pyIntOfString (s : String) : Option Int :=
  let cs := pyStrip s.data
  match cs with
  | [] => none
  | c :: rest =>
    let (sign, digits) : Int × List Char :=
      if c = '-' then (-1, rest) else if c = '+' then (1, rest) else (1, cs)
    if digits ≠ [] && digits.all Char.isDigit then some (sign * (digitsVal digits : Int))
    else none

/-! ## JSON values and Python dict / truthiness semantics -/

/-- JSON documents as loaded by `json.load`. Objects are association lists in
the document's key order, the iteration order of the resulting Python dict.
(The repository's data uses no floats, so numbers are integers.) -/
inductive Json where
  | null
  | bool (b : Bool)
  | num (n : Int)
  | str (s : String)
  | arr (elems : List Json)
  | obj (fields : List (String × Json))

/-- Python truthiness of a JSON value: `None`, `False`, `0`, `""`, `[]` and
`{}` are falsy, everything else truthy. -/
def truthy : Json → Bool
  | .null => false
  | .bool b => b
  | .num n => n ≠ 0
  | .str s => s ≠ ""
  | .arr xs => !xs.isEmpty
  | .obj fs => !fs.isEmpty

/-- `d.get(k)` on an object's field list: the stored value, `None` if absent. -/
def jget (fs : List (String × Json)) (k : String) : Json :=
  (fs.lookup k).getD Json.null

/-- Python `a or b`: `a` if truthy, else `b`. -/
def orElseTruthy (a b : Json) : Json :=
  if truthy a then a else b

/-- Python dict assignment `d[k] = v` on an association list: update in place
if the key is present (keeping its position), else append. -/
def dictInsert {κ α : Type} [DecidableEq κ] (k : κ) (v : α) :
    List (κ × α) → List (κ × α)
  | [] => [(k, v)]
  | (k₂, v₂) :: rest =>
    if k = k₂ then (k, v) :: rest else (k₂, v₂) :: dictInsert k v rest

/-- Apply `f` to the value stored at `k` (the model of `d[k][c] = v` updates;
the key is always present at the call sites, so the missing-key `KeyError`
branch is unreachable and modelled as a no-op). -/
def dictModify {κ α : Type} [DecidableEq κ] (k : κ) (f : α → α) :
    List (κ × α) → List (κ × α)
  | [] => []
  | (k₂, v₂) :: rest =>
    if k = k₂ then (k₂, f v₂) :: rest else (k₂, v₂) :: dictModify k f rest

/-- The normalized in-memory structure of one book: chapter number to the
ordered verse list. -/
abbrev ChapterDict := List (Int × List String)

/-- The normalized in-memory structure `{book_name: {chapter_num: [verses]}}`. -/
abbrev BibleDict := List (String × ChapterDict)


namespace ProcessBibleJson

/-! ## scripts/process_bible_json.py -/

/-- The canonical book name mapping of `process_bible_json.py` (lines 54-239),
transcribed verbatim. -/

def BOOK_NAME_MAP : List (String × String) := [
  ("genesis", "genesis"),
  ("gen", "genesis"),
  ("exodus", "exodus"),
  ("exo", "exodus"),
  ("leviticus", "leviticus"),
  ("lev", "leviticus"),
  ("numbers", "numbers"),
  ("num", "numbers"),
  ("deuteronomy", "deuteronomy"),
  ("deu", "deuteronomy"),
  ("deut", "deuteronomy"),
  ("joshua", "joshua"),
  ("jos", "joshua"),
  ("josh", "joshua"),
  ("judges", "judges"),
  ("jdg", "judges"),
  ("judg", "judges"),
  ("ruth", "ruth"),
  ("rut", "ruth"),
  ("1 samuel", "1_samuel"),
  ("1samuel", "1_samuel"),
  ("1sam", "1_samuel"),
  ("1 sam", "1_samuel"),
  ("2 samuel", "2_samuel"),
  ("2samuel", "2_samuel"),
  ("2sam", "2_samuel"),
  ("2 sam", "2_samuel"),
  ("1 kings", "1_kings"),
  ("1kings", "1_kings"),
  ("1ki", "1_kings"),
  ("1 ki", "1_kings"),
  ("2 kings", "2_kings"),
  ("2kings", "2_kings"),
  ("2ki", "2_kings"),
  ("2 ki", "2_kings"),
  ("1 chronicles", "1_chronicles"),
  ("1chronicles", "1_chronicles"),
  ("1ch", "1_chronicles"),
  ("1 ch", "1_chronicles"),
  ("2 chronicles", "2_chronicles"),
  ("2chronicles", "2_chronicles"),
  ("2ch", "2_chronicles"),
  ("2 ch", "2_chronicles"),
  ("ezra", "ezra"),
  ("ezr", "ezra"),
  ("nehemiah", "nehemiah"),
  ("neh", "nehemiah"),
  ("esther", "esther"),
  ("est", "esther"),
  ("job", "job"),
  ("psalms", "psalms"),
  ("psalm", "psalms"),
  ("psa", "psalms"),
  ("ps", "psalms"),
  ("proverbs", "proverbs"),
  ("pro", "proverbs"),
  ("prov", "proverbs"),
  ("ecclesiastes", "ecclesiastes"),
  ("ecc", "ecclesiastes"),
  ("eccl", "ecclesiastes"),
  ("song of solomon", "song_of_solomon"),
  ("song of songs", "song_of_solomon"),
  ("song", "song_of_solomon"),
  ("sos", "song_of_solomon"),
  ("isaiah", "isaiah"),
  ("isa", "isaiah"),
  ("jeremiah", "jeremiah"),
  ("jer", "jeremiah"),
  ("lamentations", "lamentations"),
  ("lam", "lamentations"),
  ("ezekiel", "ezekiel"),
  ("eze", "ezekiel"),
  ("ezek", "ezekiel"),
  ("daniel", "daniel"),
  ("dan", "daniel"),
  ("hosea", "hosea"),
  ("hos", "hosea"),
  ("joel", "joel"),
  ("joe", "joel"),
  ("amos", "amos"),
  ("amo", "amos"),
  ("obadiah", "obadiah"),
  ("oba", "obadiah"),
  ("jonah", "jonah"),
  ("jon", "jonah"),
  ("micah", "micah"),
  ("mic", "micah"),
  ("nahum", "nahum"),
  ("nah", "nahum"),
  ("habakkuk", "habakkuk"),
  ("hab", "habakkuk"),
  ("zephaniah", "zephaniah"),
  ("zep", "zephaniah"),
  ("zeph", "zephaniah"),
  ("haggai", "haggai"),
  ("hag", "haggai"),
  ("zechariah", "zechariah"),
  ("zec", "zechariah"),
  ("zech", "zechariah"),
  ("malachi", "malachi"),
  ("mal", "malachi"),
  ("matthew", "matthew"),
  ("mat", "matthew"),
  ("matt", "matthew"),
  ("mark", "mark"),
  ("mar", "mark"),
  ("mk", "mark"),
  ("luke", "luke"),
  ("luk", "luke"),
  ("lk", "luke"),
  ("john", "john"),
  ("joh", "john"),
  ("jn", "john"),
  ("acts", "acts"),
  ("act", "acts"),
  ("romans", "romans"),
  ("rom", "romans"),
  ("1 corinthians", "1_corinthians"),
  ("1corinthians", "1_corinthians"),
  ("1cor", "1_corinthians"),
  ("1 cor", "1_corinthians"),
  ("2 corinthians", "2_corinthians"),
  ("2corinthians", "2_corinthians"),
  ("2cor", "2_corinthians"),
  ("2 cor", "2_corinthians"),
  ("galatians", "galatians"),
  ("gal", "galatians"),
  ("ephesians", "ephesians"),
  ("eph", "ephesians"),
  ("philippians", "philippians"),
  ("phi", "philippians"),
  ("phil", "philippians"),
  ("colossians", "colossians"),
  ("col", "colossians"),
  ("1 thessalonians", "1_thessalonians"),
  ("1thessalonians", "1_thessalonians"),
  ("1th", "1_thessalonians"),
  ("1 th", "1_thessalonians"),
  ("2 thessalonians", "2_thessalonians"),
  ("2thessalonians", "2_thessalonians"),
  ("2th", "2_thessalonians"),
  ("2 th", "2_thessalonians"),
  ("1 timothy", "1_timothy"),
  ("1timothy", "1_timothy"),
  ("1ti", "1_timothy"),
  ("1 ti", "1_timothy"),
  ("2 timothy", "2_timothy"),
  ("2timothy", "2_timothy"),
  ("2ti", "2_timothy"),
  ("2 ti", "2_timothy"),
  ("titus", "titus"),
  ("tit", "titus"),
  ("philemon", "philemon"),
  ("phm", "philemon"),
  ("phlm", "philemon"),
  ("hebrews", "hebrews"),
  ("heb", "hebrews"),
  ("james", "james"),
  ("jas", "james"),
  ("jam", "james"),
  ("1 peter", "1_peter"),
  ("1peter", "1_peter"),
  ("1pe", "1_peter"),
  ("1 pe", "1_peter"),
  ("2 peter", "2_peter"),
  ("2peter", "2_peter"),
  ("2pe", "2_peter"),
  ("2 pe", "2_peter"),
  ("1 john", "1_john"),
  ("1john", "1_john"),
  ("1jo", "1_john"),
  ("1 jo", "1_john"),
  ("2 john", "2_john"),
  ("2john", "2_john"),
  ("2jo", "2_john"),
  ("2 jo", "2_john"),
  ("3 john", "3_john"),
  ("3john", "3_john"),
  ("3jo", "3_john"),
  ("3 jo", "3_john"),
  ("jude", "jude"),
  ("jud", "jude"),
  ("revelation", "revelation"),
  ("rev", "revelation")
]


/-- `normalize_book_name` (lines 242-252): lowercase and strip, remove
punctuation (`re.sub(r"[^\w\s]", "", _)`), collapse whitespace runs
(`re.sub(r"\s+", " ", _)`), look the result up in `BOOK_NAME_MAP`, and fall
back to replacing spaces with underscores. -/
def normalize_book_name (book_name : String) : String :=
  let n₁ := pyStrip (book_name.data.map Char.toLower)
  let n₂ := n₁.filter (fun c => pyIsWordChar c || pyIsSpace c)
  let n₃ := collapseWs n₂
  match BOOK_NAME_MAP.lookup (String.mk n₃) with
  | some v => v
  | none => String.mk (n₃.map (fun c => if c = ' ' then '_' else c))

/-- The leading-verse-number strip `re.sub(r"^\d+\s+", "", _)` of
`clean_verse_text`: drop a nonempty digit run followed by a nonempty
whitespace run at the start, if both are present. -/
def stripVerseNum (l : List Char) : List Char :=
  let digits := l.takeWhile Char.isDigit
  if digits.isEmpty then l
  else
    let rest := l.dropWhile Char.isDigit
    if (rest.takeWhile pyIsSpace).isEmpty then l
    else rest.dropWhile pyIsSpace

/-- `clean_verse_text` (lines 255-263): strip a leading verse number, collapse
whitespace runs to single spaces, and strip surrounding whitespace. -/
def clean_verse_text (verse_text : String) : String :=
  String.mk (pyStrip (collapseWs (stripVerseNum verse_text.data)))

/-- The book-name extraction chain of `parse_bible_json` (line 294):
`book.get('book') or book.get('name') or book.get('bookName')`. -/
def bookNameChain (fs : List (String × Json)) : Json :=
  orElseTruthy (jget fs "book") (orElseTruthy (jget fs "name") (jget fs "bookName"))

/-- The chapter-number extraction chain of `parse_bible_json` (lines 309-314):
`chapter.get('chapter') or chapter.get('number') or chapter.get('chapterNumber')
or chapter.get('id')`. -/
def chapterNumChain (fs : List (String × Json)) : Json :=
  orElseTruthy (jget fs "chapter")
    (orElseTruthy (jget fs "number")
      (orElseTruthy (jget fs "chapterNumber") (jget fs "id")))

/-- Python `int()` applied to the resolved chapter-number value (line 320):
integers pass through, booleans coerce, numeric strings parse, anything else
raises. -/
def pyIntOfJson : Json → Except String Int
  | .num n => .ok n
  | .bool b => .ok (if b then 1 else 0)
  | .str s =>
    match pyIntOfString s with
    | some n => .ok n
    | none => .error "ValueError: invalid literal for int"
  | _ => .error "TypeError: int() argument"

/-- The verses extraction of `parse_bible_json` (lines 323-325):
`chapter.get('verses') or chapter.get('verse') or []`, wrapped in a singleton
list when not a list. -/
def versesOf (fs : List (String × Json)) : List Json :=
  match orElseTruthy (jget fs "verses") (orElseTruthy (jget fs "verse") (.arr [])) with
  | .arr xs => xs
  | x => [x]

/-- The verse cleanup of `parse_bible_json` (line 328):
`[clean_verse_text(v) for v in verses if v]`. The truthiness filter runs on
the raw value, before cleaning; a truthy non-string raises inside `re.sub`. -/
def cleanedVersesOf (fs : List (String × Json)) : Except String (List String) :=
  (versesOf fs).foldlM
    (fun acc v =>
      if truthy v then
        match v with
        | .str s => .ok (acc ++ [clean_verse_text s])
        | _ => .error "TypeError: expected string or bytes-like object"
      else .ok acc)
    []

/-- One iteration of the chapter loop of `parse_bible_json` (lines 307-331)
for the book stored under `nm`: skip when the chapter-number chain is `None`,
otherwise convert it with `int`, clean the verses, and store the chapter when
the cleaned list is nonempty. -/
def processChapter (nm : String) (d : BibleDict) (ch : Json) : Except String BibleDict :=
  match ch with
  | .obj fs =>
    match chapterNumChain fs with
    | .null => .ok d
    | cn => do
      let n ← pyIntOfJson cn
      let vs ← cleanedVersesOf fs
      .ok (if vs.isEmpty then d else dictModify nm (dictInsert n vs) d)
  | _ => .error "AttributeError: get on non-dict chapter"

/-- The chapters extraction of `parse_bible_json` (lines 303-305):
`book.get('chapters') or book.get('chapter') or []`, wrapped in a singleton
list when not a list. -/
def chaptersOf (fs : List (String × Json)) : List Json :=
  match orElseTruthy (jget fs "chapters") (orElseTruthy (jget fs "chapter") (.arr [])) with
  | .arr xs => xs
  | x => [x]

/-- One iteration of the book loop of `parse_bible_json` (lines 292-331):
skip when the name chain is falsy, otherwise reset the book's entry to an
empty chapter dict (`bible_data[normalized_name] = {}`) and fold the chapter
loop over it. A truthy non-string name raises inside `normalize_book_name`. -/
def processBook (d : BibleDict) (book : Json) : Except String BibleDict :=
  match book with
  | .obj fs =>
    let bn := bookNameChain fs
    if truthy bn then
      match bn with
      | .str s =>
        let nm := normalize_book_name s
        (chaptersOf fs).foldlM (processChapter nm) (dictInsert nm [] d)
      | _ => .error "AttributeError: lower on non-string"
    else .ok d
  | _ => .error "AttributeError: get on non-dict book"

/-- The book loop of `parse_bible_json` over an extracted book list. -/
def parseBibleBooks (books : List Json) : Except String BibleDict :=
  books.foldlM processBook []

/-- The root shape sniffing of `parse_bible_json` (lines 277-290): a list is
the book list itself; a dict contributes its `books` or `bible` value (whose
iteration yields elements of a list, or the keys of a dict), else its values;
anything else raises `ValueError`. -/
def rootBooks (data : Json) : Except String (List Json) :=
  match data with
  | .arr bs => .ok bs
  | .obj fs =>
    if (fs.lookup "books").isSome then rootIter (jget fs "books")
    else if (fs.lookup "bible").isSome then rootIter (jget fs "bible")
    else .ok (fs.map Prod.snd)
  | _ => .error "ValueError: Unrecognized Bible JSON format"
where
  /-- Python iteration over the stored value: lists yield elements, dicts
  yield their keys, strings their characters, the rest raise `TypeError`. -/
  rootIter : Json → Except String (List Json)
  | .arr xs => .ok xs
  | .obj fs => .ok (fs.map (fun p => Json.str p.1))
  | .str s => .ok (s.data.map (fun c => Json.str (String.mk [c])))
  | _ => .error "TypeError: not iterable"

/-- `parse_bible_json` (lines 266-333) on an already-loaded JSON document. -/
def parseBibleData (data : Json) : Except String BibleDict := do
  parseBibleBooks (← rootBooks data)

/-- The chapter-file count of `generate_data_files` (lines 362-380): one
output file per chapter in the normalized structure. -/
def total_files (d : BibleDict) : Nat :=
  (d.map (fun p => p.2.length)).sum

/-- The chapter count of the version summary (line 353):
`sum(len(chapters) for chapters in bible_data.values())`. -/
def total_chapters (d : BibleDict) : Nat :=
  (d.map (fun p => p.2.length)).sum

/-- `validate_bible_data` (lines 400-424) only prints counts and warnings and
always returns `True`; it can never fail a run. -/
def validate_bible_data (_d : BibleDict) : Bool :=
  true

/-- Outcome of opening and `json.load`-ing the input file, the only
interactions of `main` with the filesystem that can fail before parsing. -/
inductive LoadResult where
  | missing
  | badJson
  | loaded (data : Json)

/-- The exit code of `main` (lines 427-472): exit 1 when the input file is
missing; otherwise run parse, optional validation and generation inside the
`try`, exiting 1 from the `except Exception` handler when any of them raises,
and fall off the end (exit 0) otherwise. File emission is pure bookkeeping in
this model and cannot raise. -/
def mainExitCode (input : LoadResult) (validate : Bool) : Nat :=
  match input with
  | .missing => 1
  | .badJson => 1
  | .loaded data =>
    match parseBibleData data with
    | .error _ => 1
    | .ok d =>
      let _ := if validate then validate_bible_data d else true
      let _ := total_files d
      0

end ProcessBibleJson

namespace ProcessYourBibles

/-! ## scripts/process_your_bibles.py -/

/-- The book name mapping of `process_your_bibles.py` (lines 23-91),
transcribed verbatim. -/

def BOOK_NAME_MAP : List (String × String) := [
  ("genesis", "genesis"),
  ("exodus", "exodus"),
  ("leviticus", "leviticus"),
  ("numbers", "numbers"),
  ("deuteronomy", "deuteronomy"),
  ("joshua", "joshua"),
  ("judges", "judges"),
  ("ruth", "ruth"),
  ("1 samuel", "1_samuel"),
  ("2 samuel", "2_samuel"),
  ("1 kings", "1_kings"),
  ("2 kings", "2_kings"),
  ("1 chronicles", "1_chronicles"),
  ("2 chronicles", "2_chronicles"),
  ("ezra", "ezra"),
  ("nehemiah", "nehemiah"),
  ("esther", "esther"),
  ("job", "job"),
  ("psalm", "psalms"),
  ("psalms", "psalms"),
  ("proverbs", "proverbs"),
  ("ecclesiastes", "ecclesiastes"),
  ("song of solomon", "song_of_solomon"),
  ("isaiah", "isaiah"),
  ("jeremiah", "jeremiah"),
  ("lamentations", "lamentations"),
  ("ezekiel", "ezekiel"),
  ("daniel", "daniel"),
  ("hosea", "hosea"),
  ("joel", "joel"),
  ("amos", "amos"),
  ("obadiah", "obadiah"),
  ("jonah", "jonah"),
  ("micah", "micah"),
  ("nahum", "nahum"),
  ("habakkuk", "habakkuk"),
  ("zephaniah", "zephaniah"),
  ("haggai", "haggai"),
  ("zechariah", "zechariah"),
  ("malachi", "malachi"),
  ("matthew", "matthew"),
  ("mark", "mark"),
  ("luke", "luke"),
  ("john", "john"),
  ("acts", "acts"),
  ("romans", "romans"),
  ("1 corinthians", "1_corinthians"),
  ("2 corinthians", "2_corinthians"),
  ("galatians", "galatians"),
  ("ephesians", "ephesians"),
  ("philippians", "philippians"),
  ("colossians", "colossians"),
  ("1 thessalonians", "1_thessalonians"),
  ("2 thessalonians", "2_thessalonians"),
  ("1 timothy", "1_timothy"),
  ("2 timothy", "2_timothy"),
  ("titus", "titus"),
  ("philemon", "philemon"),
  ("hebrews", "hebrews"),
  ("james", "james"),
  ("1 peter", "1_peter"),
  ("2 peter", "2_peter"),
  ("1 john", "1_john"),
  ("2 john", "2_john"),
  ("3 john", "3_john"),
  ("jude", "jude"),
  ("revelation", "revelation")
]


/-- `normalize_book_name` (lines 93-103): the same algorithm as in
`process_bible_json.py`, over this file's smaller alias table. -/
def normalize_book_name (book_name : String) : String :=
  let n₁ := pyStrip (book_name.data.map Char.toLower)
  let n₂ := n₁.filter (fun c => pyIsWordChar c || pyIsSpace c)
  let n₃ := collapseWs n₂
  match BOOK_NAME_MAP.lookup (String.mk n₃) with
  | some v => v
  | none => String.mk (n₃.map (fun c => if c = ' ' then '_' else c))

/-- `clean_verse_text` (lines 105-113): replace newlines with spaces, collapse
whitespace runs to single spaces, and strip surrounding whitespace. No verse
numbers are stripped in this script. -/
def clean_verse_text (verse_text : String) : String :=
  String.mk (pyStrip (collapseWs (verse_text.data.map (fun c => if c = '\n' then ' ' else c))))

/-- The key decoration of `sorted(verses.keys(), key=int)` (line 141): apply
`int` to every key, raising `ValueError` on any non-numeric key. -/
def numKeyed : List String → Except String (List (Int × String))
  | [] => .ok []
  | k :: ks =>
    match pyIntOfString k with
    | some n => do
      let rest ← numKeyed ks
      .ok ((n, k) :: rest)
    | none => .error "ValueError: invalid literal for int"

/-- `sorted(keys, key=int)` (line 141): sort the verse-number keys by their
integer values, ascending (Python sort is stable; so is insertion sort). -/
def sortNumeric (ks : List String) : Except String (List String) := do
  let ps ← numKeyed ks
  .ok ((ps.insertionSort (fun p q => p.1 ≤ q.1)).map Prod.snd)

/-- The verse-list conversion of `parse_user_bible_json` (lines 137-145): when
the chapter value is a dict, walk its keys in numeric order, clean each verse
text (`verses[verse_num]` is necessarily present), and keep the nonempty
cleaned texts; otherwise the verse list stays empty. A non-string verse text
raises inside `clean_verse_text`. -/
def parseUserChapterVerses (verses : Json) : Except String (List String) :=
  match verses with
  | .obj vs => do
    let ks ← sortNumeric (vs.map Prod.fst)
    ks.foldlM
      (fun acc k =>
        match jget vs k with
        | .str t =>
          let c := clean_verse_text t
          .ok (if c = "" then acc else acc ++ [c])
        | _ => .error "TypeError: expected string or bytes-like object")
      []
  | _ => .ok []

/-- One iteration of the chapter loop of `parse_user_bible_json`
(lines 134-149) for the book stored under `nm`: convert the chapter key with
`int`, build the verse list, and store the chapter when it is nonempty. -/
def processUserChapter (nm : String) (d : BibleDict) (entry : String × Json) :
    Except String BibleDict :=
  match pyIntOfString entry.1 with
  | none => .error "ValueError: invalid literal for int"
  | some n => do
    let vl ← parseUserChapterVerses entry.2
    .ok (if vl.isEmpty then d else dictModify nm (dictInsert n vl) d)

/-- One iteration of the book loop of `parse_user_bible_json` (lines 128-149):
normalize the book name, reset the book's entry to an empty chapter dict
(`bible_data[normalized_name] = {}`), and fold the chapter loop over
`chapters.items()` (raising when the chapter value is not a dict). -/
def processUserBook (d : BibleDict) (entry : String × Json) : Except String BibleDict :=
  let nm := normalize_book_name entry.1
  match entry.2 with
  | .obj chs => chs.foldlM (processUserChapter nm) (dictInsert nm [] d)
  | _ => .error "AttributeError: items on non-dict"

/-- `parse_user_bible_json` (lines 115-151) on an already-loaded JSON
document: fold the book loop over `data.items()`. -/
def parseUserBible (data : Json) : Except String BibleDict :=
  match data with
  | .obj bs => bs.foldlM processUserBook []
  | _ => .error "AttributeError: items on non-dict"

/-- The chapter-file count of this script's `generate_data_files`
(lines 174-186). -/
def total_files (d : BibleDict) : Nat :=
  (d.map (fun p => p.2.length)).sum

end ProcessYourBibles

/-- The 66 canonical book identifiers: the distinct values of the alias
tables (both scripts map onto the same 66 identifiers). -/
def canonicalBookIds : List String := [
  "genesis",
  "exodus",
  "leviticus",
  "numbers",
  "deuteronomy",
  "joshua",
  "judges",
  "ruth",
  "1_samuel",
  "2_samuel",
  "1_kings",
  "2_kings",
  "1_chronicles",
  "2_chronicles",
  "ezra",
  "nehemiah",
  "esther",
  "job",
  "psalms",
  "proverbs",
  "ecclesiastes",
  "song_of_solomon",
  "isaiah",
  "jeremiah",
  "lamentations",
  "ezekiel",
  "daniel",
  "hosea",
  "joel",
  "amos",
  "obadiah",
  "jonah",
  "micah",
  "nahum",
  "habakkuk",
  "zephaniah",
  "haggai",
  "zechariah",
  "malachi",
  "matthew",
  "mark",
  "luke",
  "john",
  "acts",
  "romans",
  "1_corinthians",
  "2_corinthians",
  "galatians",
  "ephesians",
  "philippians",
  "colossians",
  "1_thessalonians",
  "2_thessalonians",
  "1_timothy",
  "2_timothy",
  "titus",
  "philemon",
  "hebrews",
  "james",
  "1_peter",
  "2_peter",
  "1_john",
  "2_john",
  "3_john",
  "jude",
  "revelation"
]

/-! ## Whitespace normalization lemmas

The cleanup functions are compositions of `collapseWs` and `pyStrip`; the
idempotence argument shows that their output contains only single interior
spaces and no surrounding whitespace, and that such strings are fixed points
of every stage. -/

/-- Every whitespace character that `collapseWs` emits is a plain space. -/
theorem wsOnlySpace_collapseWs (l : List Char) :
    ∀ c ∈ collapseWs l, pyIsSpace c → c = ' ' := by
  induction l using collapseWs.induct with
  | case1 => intro c hc; simp [collapseWs] at hc
  | case2 c h =>
    intro x hx
    simp [collapseWs, h] at hx
    simp [hx]
  | case3 c h =>
    intro x hx
    simp [collapseWs, h] at hx
    subst hx
    intro hc
    exact absurd hc h
  | case4 c d rest h ih =>
    intro x hx
    rw [show collapseWs (c :: d :: rest) = collapseWs (d :: rest) by simp [collapseWs, h]] at hx
    exact ih x hx
  | case5 c d rest h ih =>
    intro x hx hs
    simp [collapseWs, h] at hx
    rcases hx with hx | hx
    · by_cases hc : pyIsSpace c
      · simp [hc] at hx; simp [hx]
      · simp [hc] at hx; subst hx; exact absurd hs hc
    · exact ih x hx hs

/-- The adjacency relation after collapsing: no two neighbouring whitespace
characters. -/
def noWsPair (a b : Char) : Prop :=
  ¬(pyIsSpace a = true ∧ pyIsSpace b = true)

/-- `collapseWs` keeps a non-whitespace head in place. -/
theorem collapseWs_cons_of_not_ws (d : Char) (rest : List Char)
    (h : pyIsSpace d = false) : collapseWs (d :: rest) = d :: collapseWs rest := by
  cases rest with
  | nil => simp [collapseWs, h]
  | cons e rest₂ => simp [collapseWs, h]

/-- `collapseWs` never emits two adjacent whitespace characters. -/
theorem chain'_collapseWs (l : List Char) : (collapseWs l).Chain' noWsPair := by
  induction l using collapseWs.induct with
  | case1 => simp [collapseWs]
  | case2 c h => simp [collapseWs, h]
  | case3 c h => simp [collapseWs, h]
  | case4 c d rest h ih =>
    rw [show collapseWs (c :: d :: rest) = collapseWs (d :: rest) by simp [collapseWs, h]]
    exact ih
  | case5 c d rest h ih =>
    rw [show collapseWs (c :: d :: rest)
          = (if pyIsSpace c then ' ' else c) :: collapseWs (d :: rest) by
        simp [collapseWs, h]]
    rw [List.chain'_cons']
    refine ⟨?_, ih⟩
    intro y hy
    by_cases hc : pyIsSpace c
    · have hd : pyIsSpace d = false := by
        cases hd : pyIsSpace d
        · rfl
        · exact absurd (by simp [hc, hd]) h
      rw [collapseWs_cons_of_not_ws d rest hd] at hy
      simp at hy
      subst hy
      exact fun hpair => by simp [hd] at hpair
    · simp [hc]
      exact fun hpair => absurd hpair.1 hc

/-- Lists with single interior spaces only are fixed points of `collapseWs`. -/
theorem collapseWs_eq_self (l : List Char)
    (hws : ∀ c ∈ l, pyIsSpace c → c = ' ')
    (hch : l.Chain' noWsPair) : collapseWs l = l := by
  induction l using collapseWs.induct with
  | case1 => rfl
  | case2 c h =>
    simp [collapseWs, h]
    exact (hws c (by simp) h).symm
  | case3 c h => simp [collapseWs, h]
  | case4 c d rest h ih =>
    exfalso
    have := hch.rel_head
    simp only [noWsPair] at this
    simp at h
    exact this ⟨h.1, h.2⟩
  | case5 c d rest h ih =>
    rw [show collapseWs (c :: d :: rest)
          = (if pyIsSpace c then ' ' else c) :: collapseWs (d :: rest) by
        simp [collapseWs, h]]
    have htail : collapseWs (d :: rest) = d :: rest :=
      ih (fun c hc => hws c (by simp [hc])) hch.tail
    rw [htail]
    by_cases hc : pyIsSpace c
    · rw [if_pos hc, hws c (by simp) hc]
    · rw [if_neg hc]

/-- Members of a stripped list are members of the original list. -/
theorem mem_pyStrip {c : Char} {l : List Char} (h : c ∈ pyStrip l) : c ∈ l := by
  unfold pyStrip at h
  rw [List.mem_reverse] at h
  have h₂ := (List.dropWhile_sublist (l := (l.dropWhile pyIsSpace).reverse)
    (p := pyIsSpace)).mem h
  rw [List.mem_reverse] at h₂
  exact (List.dropWhile_sublist (l := l) (p := pyIsSpace)).mem h₂

/-- `dropWhile` preserves the no-adjacent-whitespace chain. -/
theorem chain'_dropWhile {α : Type} {R : α → α → Prop} {p : α → Bool}
    {l : List α} (h : l.Chain' R) : (l.dropWhile p).Chain' R := by
  induction l with
  | nil => exact h
  | cons a t ih =>
    rw [List.dropWhile_cons]
    by_cases hp : p a
    · rw [if_pos hp]
      exact ih h.tail
    · rw [if_neg hp]
      exact h

/-- The no-adjacent-whitespace chain survives reversal. -/
theorem chain'_reverse_noWsPair {l : List Char} (h : l.Chain' noWsPair) :
    l.reverse.Chain' noWsPair := by
  rw [List.chain'_reverse]
  exact h.imp fun a b hab hpair => hab ⟨hpair.2, hpair.1⟩

/-- `pyStrip` preserves the no-adjacent-whitespace chain. -/
theorem chain'_pyStrip {l : List Char} (h : l.Chain' noWsPair) :
    (pyStrip l).Chain' noWsPair := by
  unfold pyStrip
  exact chain'_reverse_noWsPair (chain'_dropWhile (chain'_reverse_noWsPair
    (chain'_dropWhile h)))

/-- The head surviving `dropWhile` fails the predicate. -/
theorem head_dropWhile_false {α : Type} {p : α → Bool} :
    ∀ {l : List α} {c : α} {t : List α}, l.dropWhile p = c :: t → p c = false := by
  intro l
  induction l with
  | nil => intro c t h; simp at h
  | cons a t₀ ih =>
    intro c t h
    rw [List.dropWhile_cons] at h
    by_cases hp : p a
    · rw [if_pos hp] at h
      exact ih h
    · rw [if_neg hp] at h
      cases h
      cases hpa : p a
      · rfl
      · exact absurd hpa hp

/-- `dropWhile` keeps the last element when it fails the predicate. -/
theorem getLast?_dropWhile {α : Type} {p : α → Bool} :
    ∀ {l : List α} {c : α}, l.getLast? = some c → p c = false →
      (l.dropWhile p).getLast? = some c := by
  intro l
  induction l with
  | nil => intro c h; simp at h
  | cons a t ih =>
    intro c h hpc
    cases t with
    | nil =>
      simp at h
      subst h
      rw [List.dropWhile_cons, if_neg (by simp [hpc])]
      rfl
    | cons b t₂ =>
      rw [List.getLast?_cons_cons] at h
      rw [List.dropWhile_cons]
      by_cases hp : p a
      · rw [if_pos hp]
        exact ih h hpc
      · rw [if_neg hp]
        rw [List.getLast?_cons_cons]
        exact h

/-- The head of a stripped list is not whitespace. -/
theorem head_pyStrip_false {l : List Char} {c : Char} {t : List Char}
    (h : pyStrip l = c :: t) : pyIsSpace c = false := by
  unfold pyStrip at h
  cases hm : l.dropWhile pyIsSpace with
  | nil => rw [hm] at h; simp at h
  | cons a m =>
    have ha : pyIsSpace a = false := head_dropWhile_false hm
    have hlast : ((a :: m).reverse.dropWhile pyIsSpace).getLast? = some a := by
      apply getLast?_dropWhile _ ha
      rw [List.getLast?_reverse]
      rfl
    rw [hm] at h
    have : ((a :: m).reverse.dropWhile pyIsSpace).reverse.head? = some a := by
      rw [List.head?_reverse]
      exact hlast
    rw [h] at this
    simp at this
    rw [this]
    exact ha

/-- The last element of a stripped list is not whitespace. -/
theorem getLast_pyStrip_false {l : List Char} {c : Char}
    (h : (pyStrip l).getLast? = some c) : pyIsSpace c = false := by
  unfold pyStrip at h
  rw [List.getLast?_reverse] at h
  cases hm : (l.dropWhile pyIsSpace).reverse.dropWhile pyIsSpace with
  | nil => rw [hm] at h; simp at h
  | cons a m =>
    rw [hm] at h
    simp at h
    rw [← h]
    exact head_dropWhile_false hm

/-- Lists with no surrounding whitespace are fixed points of `pyStrip`. -/
theorem pyStrip_eq_self {l : List Char}
    (hhead : ∀ c t, l = c :: t → pyIsSpace c = false)
    (hlast : ∀ c, l.getLast? = some c → pyIsSpace c = false) :
    pyStrip l = l := by
  cases l with
  | nil => rfl
  | cons a t =>
    have ha : pyIsSpace a = false := hhead a t rfl
    unfold pyStrip
    rw [List.dropWhile_cons, if_neg (by simp [ha])]
    cases hrev : (a :: t).reverse with
    | nil => simp at hrev
    | cons b m =>
      have hb : (a :: t).getLast? = some b := by
        rw [← List.head?_reverse, hrev]
        rfl
      rw [List.dropWhile_cons, if_neg (by simp [hlast b hb])]
      rw [← hrev, List.reverse_reverse]

/-- Core of the idempotence of the shape (c) cleaner, on character lists: the
output of strip-after-collapse is a fixed point of the whole pipeline. -/
theorem cleanList_fixed (u : List Char) :
    pyStrip (collapseWs ((pyStrip (collapseWs u)).map
        (fun c => if c = '\n' then ' ' else c)))
      = pyStrip (collapseWs u) := by
  set t := pyStrip (collapseWs u) with ht
  have hws : ∀ c ∈ t, pyIsSpace c → c = ' ' := fun c hc =>
    wsOnlySpace_collapseWs u c (mem_pyStrip hc)
  have hmap : t.map (fun c => if c = '\n' then ' ' else c) = t := by
    have : ∀ c ∈ t, (if c = '\n' then ' ' else c) = c := by
      intro c hc
      by_cases hnl : c = '\n'
      · exfalso
        have := hws c hc (by rw [hnl]; rfl)
        rw [hnl] at this
        exact absurd this (by decide)
      · rw [if_neg hnl]
    rw [List.map_congr_left this]
    exact List.map_id t
  rw [hmap]
  have hch : t.Chain' noWsPair := chain'_pyStrip (chain'_collapseWs u)
  rw [collapseWs_eq_self t hws hch]
  exact pyStrip_eq_self (fun c t₂ h => head_pyStrip_false (ht ▸ h))
    (fun c h => getLast_pyStrip_false (ht ▸ h))

/-- The shape (c) cleaner `process_your_bibles.clean_verse_text` is
idempotent. -/
theorem pyb_clean_idempotent (s : String) :
    ProcessYourBibles.clean_verse_text (ProcessYourBibles.clean_verse_text s)
      = ProcessYourBibles.clean_verse_text s := by
  unfold ProcessYourBibles.clean_verse_text
  exact congrArg String.mk (cleanList_fixed (s.data.map (fun c => if c = '\n' then ' ' else c)))

/-! ## Numeric key sorting lemmas (shape (c) verse ordering) -/

instance : IsTotal (Int × String) (fun p q => p.1 ≤ q.1) :=
  ⟨fun a b => Int.le_total a.1 b.1⟩

instance : IsTrans (Int × String) (fun p q => p.1 ≤ q.1) :=
  ⟨fun _ _ _ hab hbc => le_trans hab hbc⟩

/-- Numeric comparison of verse-number keys: whenever both parse as integers,
the first is at most the second. -/
def numStrLE (a b : String) : Prop :=
  ∀ m n, pyIntOfString a = some m → pyIntOfString b = some n → m ≤ n

/-- Specification of the key decoration: it succeeds exactly by pairing every
key with its integer value, preserving order. -/
theorem numKeyed_spec :
    ∀ {ks : List String} {ps : List (Int × String)},
      ProcessYourBibles.numKeyed ks = .ok ps →
      ps.map Prod.snd = ks ∧ ∀ p ∈ ps, pyIntOfString p.2 = some p.1 := by
  intro ks
  induction ks with
  | nil =>
    intro ps h
    cases h
    exact ⟨rfl, by simp⟩
  | cons k ks ih =>
    intro ps h
    unfold ProcessYourBibles.numKeyed at h
    cases hk : pyIntOfString k with
    | none => rw [hk] at h; cases h
    | some n =>
      rw [hk] at h
      cases hr : ProcessYourBibles.numKeyed ks with
      | error e => rw [hr] at h; cases h
      | ok rest =>
        rw [hr] at h
        simp only [Except.bind] at h
        cases h
        obtain ⟨hmap, hmem⟩ := ih hr
        refine ⟨by simp [hmap], ?_⟩
        intro p hp
        rcases List.mem_cons.mp hp with hp | hp
        · rw [hp]
          exact hk
        · exact hmem p hp

/-- Specification of `sorted(keys, key=int)`: on success the output is a
permutation of the keys arranged in ascending numeric order. -/
theorem sortNumeric_spec {ks ks₂ : List String}
    (h : ProcessYourBibles.sortNumeric ks = .ok ks₂) :
    ks₂.Perm ks ∧ ks₂.Pairwise numStrLE := by
  unfold ProcessYourBibles.sortNumeric at h
  cases hp : ProcessYourBibles.numKeyed ks with
  | error e => rw [hp] at h; cases h
  | ok ps =>
    rw [hp] at h
    cases h
    obtain ⟨hmap, hmem⟩ := numKeyed_spec hp
    constructor
    · have h₁ : ((ps.insertionSort (fun p q => p.1 ≤ q.1)).map Prod.snd).Perm
          (ps.map Prod.snd) :=
        (List.perm_insertionSort (fun p q => p.1 ≤ q.1) ps).map Prod.snd
      rw [hmap] at h₁
      exact h₁
    · rw [List.pairwise_map]
      have hsorted : (ps.insertionSort (fun p q => p.1 ≤ q.1)).Pairwise
          (fun p q => p.1 ≤ q.1) :=
        List.sorted_insertionSort (fun p q : Int × String => p.1 ≤ q.1) ps
      refine hsorted.imp_of_mem ?_
      intro p q hpmem hqmem hle
      intro m n hm hn
      have hp₂ : pyIntOfString p.2 = some p.1 :=
        hmem p ((List.mem_insertionSort (fun p q => p.1 ≤ q.1)).mp hpmem)
      have hq₂ : pyIntOfString q.2 = some q.1 :=
        hmem q ((List.mem_insertionSort (fun p q => p.1 ≤ q.1)).mp hqmem)
      rw [hp₂] at hm
      rw [hq₂] at hn
      cases hm
      cases hn
      exact hle

/-- The normalized lookup key computed by `normalize_book_name` before the
alias-table lookup: lowercase, strip, remove punctuation, collapse whitespace
(steps shared by both scripts). -/
def normalizeKey (s : String) : String :=
  String.mk (collapseWs ((pyStrip (s.data.map Char.toLower)).filter
    (fun c => pyIsWordChar c || pyIsSpace c)))

/-! ## Claims -/

/-- Claim C1: for shape (c) input, the parser orders verses within every
chapter by sorting the verse-number keys numerically ascending (on success
the sorted key list is a permutation of the chapter's keys that is pairwise
ascending by integer value, not by string order); in particular the chapter
with keys 10, 2, 1 holding j, b, a parses to the verse list a, b, j. -/
theorem claim_C1_shape_c_numeric_verse_order :
    (∀ ks ks₂ : List String, ProcessYourBibles.sortNumeric ks = .ok ks₂ →
      ks₂.Perm ks ∧ ks₂.Pairwise numStrLE) ∧
    ProcessYourBibles.parseUserBible
        (Json.obj [("Genesis", Json.obj [("1", Json.obj
          [("10", Json.str "j"), ("2", Json.str "b"), ("1", Json.str "a")])])])
      = .ok [("genesis", [(1, ["a", "b", "j"])])] :=
  ⟨fun _ _ h => sortNumeric_spec h, rfl⟩

/-- Witness for C1: the concrete key list 10, 2, 1 sorts to 1, 2, 10, a
permutation of the input. -/
theorem claim_C1_witness :
    ProcessYourBibles.sortNumeric ["10", "2", "1"] = .ok ["1", "2", "10"] ∧
    List.Perm ["1", "2", "10"] ["10", "2", "1"] :=
  ⟨rfl, (claim_C1_shape_c_numeric_verse_order.1 ["10", "2", "1"] ["1", "2", "10"] rfl).1⟩

/-- Claim C2: canonicalization maps "1 Samuel", "1samuel" and "1 sam" to
"1_samuel" (via the alias table of `process_bible_json.py`). -/
theorem claim_C2_samuel_aliases :
    ProcessBibleJson.normalize_book_name "1 Samuel" = "1_samuel" ∧
    ProcessBibleJson.normalize_book_name "1samuel" = "1_samuel" ∧
    ProcessBibleJson.normalize_book_name "1 sam" = "1_samuel" := by
  refine ⟨by decide, by decide, by decide⟩

/-- Counterexample to claim C3 as stated: no single cleanup function of the
repository satisfies both conjuncts. The shape (a)/(b) cleaner is not
idempotent (re-cleaning "2 x" strips a further leading number), and the
shape (c) cleaner does not map the specific input to "In the beginning"
(it strips no verse number). -/
theorem claim_C3_counterexample :
    ProcessBibleJson.clean_verse_text (ProcessBibleJson.clean_verse_text "1 2 x")
        ≠ ProcessBibleJson.clean_verse_text "1 2 x" ∧
    ProcessYourBibles.clean_verse_text "1  In the   beginning\n" ≠ "In the beginning" := by
  refine ⟨by decide, by decide⟩

/-- Claim C3 (amended): the shape (c) cleaner
(`process_your_bibles.clean_verse_text`) is idempotent on every string; the
shape (a)/(b) cleaner (`process_bible_json.clean_verse_text`) maps
"1  In the   beginning\n" to "In the beginning" but is not idempotent, since
each application strips a further leading digit run: it sends "1 2 x" to
"2 x" and re-cleaning that yields "x". -/
theorem claim_C3_amended_cleanup :
    (∀ v : String,
      ProcessYourBibles.clean_verse_text (ProcessYourBibles.clean_verse_text v)
        = ProcessYourBibles.clean_verse_text v) ∧
    ProcessBibleJson.clean_verse_text "1  In the   beginning\n" = "In the beginning" ∧
    ProcessBibleJson.clean_verse_text "1 2 x" = "2 x" ∧
    ProcessBibleJson.clean_verse_text (ProcessBibleJson.clean_verse_text "1 2 x") = "x" :=
  ⟨pyb_clean_idempotent, by decide, by decide, by decide⟩

/-- Claim C7: the 66 canonical identifiers (exactly the values of the alias
table) are each mapped to themselves by the canonicalizer. -/
theorem claim_C7_canonical_id_idempotence :
    canonicalBookIds.length = 66 ∧ canonicalBookIds.Nodup ∧
    (canonicalBookIds.all fun id =>
      (ProcessBibleJson.BOOK_NAME_MAP.map Prod.snd).contains id) = true ∧
    (canonicalBookIds.all fun id =>
      ProcessBibleJson.normalize_book_name id == id) = true := by
  refine ⟨by decide, by decide, by decide, by decide⟩

/-- Claim C9: the canonicalizer never fails: whenever the normalized form of
the input is not an alias-table key, it is returned with spaces replaced by
underscores; in particular "Foobar" canonicalizes to "foobar". -/
theorem claim_C9_unknown_name_fallback :
    (∀ s : String, ProcessBibleJson.BOOK_NAME_MAP.lookup (normalizeKey s) = none →
      ProcessBibleJson.normalize_book_name s
        = String.mk ((normalizeKey s).data.map (fun c => if c = ' ' then '_' else c))) ∧
    ProcessBibleJson.normalize_book_name "Foobar" = "foobar" := by
  constructor
  · intro s h
    unfold normalizeKey at h
    unfold ProcessBibleJson.normalize_book_name normalizeKey
    dsimp only
    rw [h]
  · decide

/-- Witness for C9: "Foobar" misses the alias table and falls through to the
underscore fallback. -/
theorem claim_C9_witness :
    ProcessBibleJson.BOOK_NAME_MAP.lookup (normalizeKey "Foobar") = none ∧
    ProcessBibleJson.normalize_book_name "Foobar"
      = String.mk ((normalizeKey "Foobar").data.map (fun c => if c = ' ' then '_' else c)) :=
  ⟨by decide, claim_C9_unknown_name_fallback.1 "Foobar" (by decide)⟩

/-- A chapter object whose number chain resolves to `None` leaves the
structure unchanged (the `continue` branch of the chapter loop). -/
theorem processChapter_skip {nm : String} {d : BibleDict}
    {fs : List (String × Json)} (h : ProcessBibleJson.chapterNumChain fs = Json.null) :
    ProcessBibleJson.processChapter nm d (Json.obj fs) = .ok d := by
  unfold ProcessBibleJson.processChapter
  dsimp only
  rw [h]

/-- A book object whose name chain is falsy leaves the structure unchanged
(the `continue` branch of the book loop). -/
theorem processBook_skip {d : BibleDict} {fs : List (String × Json)}
    (h : truthy (ProcessBibleJson.bookNameChain fs) = false) :
    ProcessBibleJson.processBook d (Json.obj fs) = .ok d := by
  unfold ProcessBibleJson.processBook
  dsimp only
  rw [h]
  rfl

/-- Claim C8: in shape (a)/(b) parsing, a book with no resolvable name and a
chapter with no resolvable number are skipped in place: deleting such an
entry from the input does not change the parse, so every other book and
chapter is still processed and nothing aborts. -/
theorem claim_C8_per_item_skips :
    (∀ (bs₁ bs₂ : List Json) (fs : List (String × Json)),
      truthy (ProcessBibleJson.bookNameChain fs) = false →
      ProcessBibleJson.parseBibleBooks (bs₁ ++ Json.obj fs :: bs₂)
        = ProcessBibleJson.parseBibleBooks (bs₁ ++ bs₂)) ∧
    (∀ (nm : String) (d : BibleDict) (chs₁ chs₂ : List Json)
        (fs : List (String × Json)),
      ProcessBibleJson.chapterNumChain fs = Json.null →
      (chs₁ ++ Json.obj fs :: chs₂).foldlM (ProcessBibleJson.processChapter nm) d
        = (chs₁ ++ chs₂).foldlM (ProcessBibleJson.processChapter nm) d) := by
  constructor
  · intro bs₁ bs₂ fs h
    unfold ProcessBibleJson.parseBibleBooks
    rw [List.foldlM_append, List.foldlM_append]
    cases hf : bs₁.foldlM ProcessBibleJson.processBook ([] : BibleDict) with
    | error e => rfl
    | ok d₂ =>
      show (Json.obj fs :: bs₂).foldlM ProcessBibleJson.processBook d₂
        = bs₂.foldlM ProcessBibleJson.processBook d₂
      rw [List.foldlM_cons, processBook_skip h]
      rfl
  · intro nm d chs₁ chs₂ fs h
    rw [List.foldlM_append, List.foldlM_append]
    cases hf : chs₁.foldlM (ProcessBibleJson.processChapter nm) d with
    | error e => rfl
    | ok d₂ =>
      show (Json.obj fs :: chs₂).foldlM (ProcessBibleJson.processChapter nm) d₂
        = chs₂.foldlM (ProcessBibleJson.processChapter nm) d₂
      rw [List.foldlM_cons, processChapter_skip h]
      rfl

/-- Witness for C8: dropping a nameless book, or a numberless chapter, from a
concrete input leaves the same successfully parsed result. -/
theorem claim_C8_witness :
    ProcessBibleJson.parseBibleBooks
        [Json.obj [("title", Json.num 1)],
         Json.obj [("book", Json.str "Genesis"), ("chapters", Json.arr
           [Json.obj [("chapter", Json.num 1), ("verses", Json.arr [Json.str "a"])]])]]
      = ProcessBibleJson.parseBibleBooks
        [Json.obj [("book", Json.str "Genesis"), ("chapters", Json.arr
           [Json.obj [("chapter", Json.num 1), ("verses", Json.arr [Json.str "a"])]])]] ∧
    ProcessBibleJson.parseBibleBooks
        [Json.obj [("book", Json.str "Genesis"), ("chapters", Json.arr
           [Json.obj [("chapter", Json.num 1), ("verses", Json.arr [Json.str "a"])]])]]
      = .ok [("genesis", [(1, ["a"])])] ∧
    [Json.obj [("label", Json.num 3)],
     Json.obj [("chapter", Json.num 1), ("verses", Json.arr [Json.str "a"])]].foldlM
        (ProcessBibleJson.processChapter "genesis") [("genesis", [])]
      = [Json.obj [("chapter", Json.num 1),
          ("verses", Json.arr [Json.str "a"])]].foldlM
        (ProcessBibleJson.processChapter "genesis") [("genesis", [])] :=
  ⟨claim_C8_per_item_skips.1 [] _ _ rfl, rfl,
   claim_C8_per_item_skips.2 "genesis" _ [] _ _ rfl⟩

/-! ## Last-write-wins machinery for claim C4 -/

/-- Left-biased choice on `Option`. -/
def optOr {α : Type} : Option α → Option α → Option α
  | some x, _ => some x
  | none, b => b

theorem optOr_none_right {α : Type} (a : Option α) : optOr a none = a := by
  cases a <;> rfl

theorem optOr_assoc {α : Type} (a b c : Option α) :
    optOr (optOr a b) c = optOr a (optOr b c) := by
  cases a <;> rfl

/-- `d[k][n] = v` on a freshly set key: modifying right after inserting is
inserting the modified value. -/
theorem dictModify_dictInsert {κ α : Type} [DecidableEq κ]
    (k : κ) (f : α → α) (v : α) :
    ∀ d : List (κ × α), dictModify k f (dictInsert k v d) = dictInsert k (f v) d := by
  intro d
  induction d with
  | nil => simp [dictInsert, dictModify]
  | cons p rest ih =>
    obtain ⟨k₂, v₂⟩ := p
    by_cases h : k = k₂
    · simp [dictInsert, dictModify, h]
    · simp [dictInsert, dictModify, h, ih]

/-- Dict lookup (`d[k]` read access, `none` when absent). -/
def dlookup {κ α : Type} [DecidableEq κ] (k : κ) : List (κ × α) → Option α
  | [] => none
  | (k₂, v) :: rest => if k = k₂ then some v else dlookup k rest

/-- Lookup after a dict assignment: the new value at the assigned key,
unchanged elsewhere. -/
theorem dlookup_dictInsert {κ α : Type} [DecidableEq κ] (k id : κ) (v : α) :
    ∀ d : List (κ × α),
      dlookup id (dictInsert k v d) = if id = k then some v else dlookup id d := by
  intro d
  induction d with
  | nil => simp [dictInsert, dlookup]
  | cons p rest ih =>
    obtain ⟨k₂, v₂⟩ := p
    by_cases hk : k = k₂
    · subst hk
      by_cases h : id = k
      · simp [dictInsert, dlookup, h]
      · simp [dictInsert, dlookup, h]
    · by_cases h : id = k₂
      · subst h
        have hidk : ¬id = k := fun hik => hk hik.symm
        simp [dictInsert, dlookup, hk, hidk]
      · simp [dictInsert, dlookup, hk, h, ih]

/-- Keys after a dict assignment: unchanged when the key was present, the
key appended otherwise. -/
theorem keys_dictInsert {κ α : Type} [DecidableEq κ] (k : κ) (v : α) :
    ∀ d : List (κ × α),
      (dictInsert k v d).map Prod.fst
        = if k ∈ d.map Prod.fst then d.map Prod.fst
          else d.map Prod.fst ++ [k] := by
  intro d
  induction d with
  | nil => simp [dictInsert]
  | cons p rest ih =>
    obtain ⟨k₂, v₂⟩ := p
    by_cases hk : k = k₂
    · subst hk
      simp [dictInsert]
    · have hmem : k ∈ ((k₂, v₂) :: rest).map Prod.fst ↔ k ∈ rest.map Prod.fst := by
        simp [hk]
      by_cases hin : k ∈ rest.map Prod.fst
      · rw [if_pos (hmem.mpr hin)]
        simp [dictInsert, hk, ih, hin]
      · rw [if_neg (fun hcontra => hin (hmem.mp hcontra))]
        simp [dictInsert, hk, ih, hin]

/-- Dict assignment preserves key uniqueness. -/
theorem nodup_keys_dictInsert {κ α : Type} [DecidableEq κ] (k : κ) (v : α)
    {d : List (κ × α)} (h : (d.map Prod.fst).Nodup) :
    ((dictInsert k v d).map Prod.fst).Nodup := by
  rw [keys_dictInsert]
  by_cases hin : k ∈ d.map Prod.fst
  · rw [if_pos hin]
    exact h
  · rw [if_neg hin]
    simp [List.nodup_append, h, hin]

/-- Entries present after a dict assignment: the assigned pair or an old
pair. -/
theorem mem_dictInsert {κ α : Type} [DecidableEq κ] {p : κ × α} {k : κ} {v : α} :
    ∀ {d : List (κ × α)}, p ∈ dictInsert k v d → p = (k, v) ∨ p ∈ d := by
  intro d
  induction d with
  | nil =>
    intro h
    exact Or.inl (List.mem_singleton.mp h)
  | cons q rest ih =>
    obtain ⟨k₂, v₂⟩ := q
    intro h
    by_cases hk : k = k₂
    · rw [show dictInsert k v ((k₂, v₂) :: rest) = (k, v) :: rest by
        simp [dictInsert, hk]] at h
      rcases List.mem_cons.mp h with h | h
      · exact Or.inl h
      · exact Or.inr (List.mem_cons_of_mem _ h)
    · rw [show dictInsert k v ((k₂, v₂) :: rest) = (k₂, v₂) :: dictInsert k v rest by
        simp [dictInsert, hk]] at h
      rcases List.mem_cons.mp h with h | h
      · exact Or.inr (h ▸ List.mem_cons_self _ _)
      · rcases ih h with h₂ | h₂
        · exact Or.inl h₂
        · exact Or.inr (List.mem_cons_of_mem _ h₂)

/-- The net effect of one chapter-loop iteration on the current book's own
chapter dict (the big dict's entry for the book is the only one touched). -/
def ProcessBibleJson.chapterStep (cd : ChapterDict) (ch : Json) :
    Except String ChapterDict :=
  match ch with
  | .obj cfs =>
    match ProcessBibleJson.chapterNumChain cfs with
    | .null => .ok cd
    | cn => do
      let n ← ProcessBibleJson.pyIntOfJson cn
      let vs ← ProcessBibleJson.cleanedVersesOf cfs
      .ok (if vs.isEmpty then cd else dictInsert n vs cd)
  | _ => .error "AttributeError: get on non-dict chapter"

/-- The chapter dict a book entry builds, starting from the fresh `{}` that
`bible_data[normalized_name] = {}` assigns. -/
def ProcessBibleJson.bookChapters (fs : List (String × Json)) :
    Except String ChapterDict :=
  (ProcessBibleJson.chaptersOf fs).foldlM ProcessBibleJson.chapterStep []

/-- The net contribution of one book-loop iteration: nothing for a skipped
book, otherwise the canonical id together with the book's chapter dict. -/
def ProcessBibleJson.bookContribution (book : Json) :
    Except String (Option (String × ChapterDict)) :=
  match book with
  | .obj fs =>
    let bn := ProcessBibleJson.bookNameChain fs
    if truthy bn then
      match bn with
      | .str s => do
        let cd ← ProcessBibleJson.bookChapters fs
        .ok (some (ProcessBibleJson.normalize_book_name s, cd))
      | _ => .error "AttributeError: lower on non-string"
    else .ok none
  | _ => .error "AttributeError: get on non-dict book"

/-- Shared core of `processChapter` and `chapterStep` after the skip check:
updating through the big dict is the same as updating the book's chapter dict
and re-inserting it. -/
theorem chapterCore_insert (nm : String) (d : BibleDict) (cd : ChapterDict)
    (cn : Json) (cfs : List (String × Json)) :
    (do
      let n ← ProcessBibleJson.pyIntOfJson cn
      let vs ← ProcessBibleJson.cleanedVersesOf cfs
      Except.ok (if vs.isEmpty then dictInsert nm cd d
        else dictModify nm (dictInsert n vs) (dictInsert nm cd d)))
    = (do
        let n ← ProcessBibleJson.pyIntOfJson cn
        let vs ← ProcessBibleJson.cleanedVersesOf cfs
        Except.ok (if vs.isEmpty then cd else dictInsert n vs cd)).map
      (fun cd₂ => dictInsert nm cd₂ d) := by
  cases hn : ProcessBibleJson.pyIntOfJson cn with
  | error e => rfl
  | ok n =>
    cases hv : ProcessBibleJson.cleanedVersesOf cfs with
    | error e => rfl
    | ok vs =>
      show Except.ok (if vs.isEmpty then dictInsert nm cd d
          else dictModify nm (dictInsert n vs) (dictInsert nm cd d))
        = (Except.ok (if vs.isEmpty then cd else dictInsert n vs cd)).map
          (fun cd₂ => dictInsert nm cd₂ d)
      by_cases he : vs.isEmpty
      · rw [if_pos he, if_pos he]
        rfl
      · rw [if_neg he, if_neg he, dictModify_dictInsert]
        rfl

/-- One chapter iteration through the big dict equals the same iteration on
the book's own chapter dict, re-inserted. -/
theorem processChapter_step (nm : String) (d : BibleDict) (cd : ChapterDict)
    (ch : Json) :
    ProcessBibleJson.processChapter nm (dictInsert nm cd d) ch
      = (ProcessBibleJson.chapterStep cd ch).map (fun cd₂ => dictInsert nm cd₂ d) := by
  cases ch with
  | obj cfs =>
    show (match ProcessBibleJson.chapterNumChain cfs with
      | .null => Except.ok (dictInsert nm cd d)
      | cn => do
        let n ← ProcessBibleJson.pyIntOfJson cn
        let vs ← ProcessBibleJson.cleanedVersesOf cfs
        Except.ok (if vs.isEmpty then dictInsert nm cd d
          else dictModify nm (dictInsert n vs) (dictInsert nm cd d)))
      = (match ProcessBibleJson.chapterNumChain cfs with
          | .null => Except.ok cd
          | cn => do
            let n ← ProcessBibleJson.pyIntOfJson cn
            let vs ← ProcessBibleJson.cleanedVersesOf cfs
            Except.ok (if vs.isEmpty then cd else dictInsert n vs cd)).map
        (fun cd₂ => dictInsert nm cd₂ d)
    cases hc : ProcessBibleJson.chapterNumChain cfs with
    | null => rfl
    | bool b => exact chapterCore_insert nm d cd (.bool b) cfs
    | num n => exact chapterCore_insert nm d cd (.num n) cfs
    | str s => exact chapterCore_insert nm d cd (.str s) cfs
    | arr xs => exact chapterCore_insert nm d cd (.arr xs) cfs
    | obj fs₂ => exact chapterCore_insert nm d cd (.obj fs₂) cfs
  | null => rfl
  | bool b => rfl
  | num n => rfl
  | str s => rfl
  | arr xs => rfl

/-- Folding the chapter loop through the big dict equals folding it on the
book's chapter dict and re-inserting the result. -/
theorem foldChapters_insert (nm : String) :
    ∀ (chs : List Json) (d : BibleDict) (cd : ChapterDict),
      chs.foldlM (ProcessBibleJson.processChapter nm) (dictInsert nm cd d)
        = (chs.foldlM ProcessBibleJson.chapterStep cd).map
          (fun cd₂ => dictInsert nm cd₂ d) := by
  intro chs
  induction chs with
  | nil => intro d cd; rfl
  | cons ch chs ih =>
    intro d cd
    rw [List.foldlM_cons, List.foldlM_cons, processChapter_step]
    cases hs : ProcessBibleJson.chapterStep cd ch with
    | error e => rfl
    | ok cd₂ => exact ih d cd₂

/-- One book-loop iteration equals computing the book's contribution and
inserting it. -/
theorem processBook_eq (d : BibleDict) (book : Json) :
    ProcessBibleJson.processBook d book
      = (ProcessBibleJson.bookContribution book).map
        (fun c => match c with
          | none => d
          | some (nm, cd) => dictInsert nm cd d) := by
  cases book with
  | obj fs =>
    show (if truthy (ProcessBibleJson.bookNameChain fs) then
        match ProcessBibleJson.bookNameChain fs with
        | Json.str s =>
          (ProcessBibleJson.chaptersOf fs).foldlM
            (ProcessBibleJson.processChapter (ProcessBibleJson.normalize_book_name s))
            (dictInsert (ProcessBibleJson.normalize_book_name s) [] d)
        | _ => Except.error "AttributeError: lower on non-string"
      else Except.ok d)
      = (if truthy (ProcessBibleJson.bookNameChain fs) then
          match ProcessBibleJson.bookNameChain fs with
          | Json.str s => do
            let cd ← ProcessBibleJson.bookChapters fs
            Except.ok (some (ProcessBibleJson.normalize_book_name s, cd))
          | _ => Except.error "AttributeError: lower on non-string"
        else Except.ok none).map
        (fun c => match c with
          | none => d
          | some (nm, cd) => dictInsert nm cd d)
    cases hb : truthy (ProcessBibleJson.bookNameChain fs) with
    | false => rfl
    | true =>
      rw [if_pos rfl, if_pos rfl]
      cases hn : ProcessBibleJson.bookNameChain fs with
      | str s =>
        dsimp only
        rw [show ProcessBibleJson.bookChapters fs
            = (ProcessBibleJson.chaptersOf fs).foldlM ProcessBibleJson.chapterStep []
          from rfl]
        rw [foldChapters_insert]
        cases hbc : (ProcessBibleJson.chaptersOf fs).foldlM
            ProcessBibleJson.chapterStep [] with
        | error e => rfl
        | ok cd => rfl
      | null => rfl
      | bool b => rfl
      | num n => rfl
      | arr xs => rfl
      | obj fs₂ => rfl
  | null => rfl
  | bool b => rfl
  | num n => rfl
  | str s => rfl
  | arr xs => rfl

/-- One step of the accumulator computing the last contribution for `id`. -/
def contribStep (id : String) (acc : Option ChapterDict) (b : Json) :
    Option ChapterDict :=
  match ProcessBibleJson.bookContribution b with
  | .ok (some (nm, cd)) => if nm = id then some cd else acc
  | _ => acc

/-- The chapters the parse run assigns to canonical id `id`: those of the
last book entry in the input that resolves to `id` (none if no entry does). -/
def ProcessBibleJson.lastContribution (books : List Json) (id : String) :
    Option ChapterDict :=
  books.foldl (contribStep id) none

theorem contribStep_none_or (id : String) (a : Option ChapterDict) (b : Json) :
    contribStep id a b = optOr (contribStep id none b) a := by
  unfold contribStep
  cases hc : ProcessBibleJson.bookContribution b with
  | error e => rfl
  | ok c =>
    cases c with
    | none => rfl
    | some p =>
      obtain ⟨nm, cd⟩ := p
      dsimp only
      by_cases h : nm = id
      · rw [if_pos h, if_pos h]
        rfl
      · rw [if_neg h, if_neg h]
        rfl

theorem foldl_contribStep (id : String) :
    ∀ (bs : List Json) (a : Option ChapterDict),
      bs.foldl (contribStep id) a = optOr (bs.foldl (contribStep id) none) a := by
  intro bs
  induction bs with
  | nil => intro a; rfl
  | cons b bs ih =>
    intro a
    rw [List.foldl_cons, List.foldl_cons, ih (contribStep id a b),
      ih (contribStep id none b), contribStep_none_or id a b, optOr_assoc]

/-- Folding the book loop resolves every id to its last contribution,
falling back to the starting dict. -/
theorem parse_dlookup :
    ∀ (books : List Json) (d res : BibleDict),
      books.foldlM ProcessBibleJson.processBook d = .ok res →
      ∀ id, dlookup id res
        = optOr (ProcessBibleJson.lastContribution books id) (dlookup id d) := by
  intro books
  induction books with
  | nil =>
    intro d res h id
    cases h
    rfl
  | cons b bs ih =>
    intro d res h id
    rw [List.foldlM_cons] at h
    cases hb : ProcessBibleJson.processBook d b with
    | error e => rw [hb] at h; cases h
    | ok d₂ =>
      rw [hb] at h
      have h₂ : bs.foldlM ProcessBibleJson.processBook d₂ = .ok res := h
      have key := processBook_eq d b
      rw [hb] at key
      unfold ProcessBibleJson.lastContribution
      rw [List.foldl_cons, foldl_contribStep]
      cases hc : ProcessBibleJson.bookContribution b with
      | error e => rw [hc] at key; cases key
      | ok c =>
        rw [hc] at key
        cases c with
        | none =>
          have hd₂ : d₂ = d := Except.ok.inj key
          rw [show contribStep id none b = none by unfold contribStep; rw [hc]]
          subst hd₂
          rw [optOr_none_right]
          exact ih d₂ res h₂ id
        | some p =>
          obtain ⟨nm, cd⟩ := p
          have hd₂ : d₂ = dictInsert nm cd d := Except.ok.inj key
          subst hd₂
          have ihh := ih _ res h₂ id
          rw [dlookup_dictInsert] at ihh
          rw [show contribStep id none b = (if nm = id then some cd else none) by
            unfold contribStep; rw [hc]]
          rw [ihh, optOr_assoc]
          by_cases h : id = nm
          · rw [if_pos h, if_pos (h.symm)]
            rfl
          · rw [if_neg h, if_neg (fun hcontra => h hcontra.symm)]
            rfl

/-- A chapter step either keeps the chapter dict or performs one dict
assignment on it. -/
theorem chapterStep_shape {cd cd₂ : ChapterDict} {ch : Json}
    (h : ProcessBibleJson.chapterStep cd ch = .ok cd₂) :
    cd₂ = cd ∨ ∃ n vs, cd₂ = dictInsert n vs cd := by
  cases ch with
  | obj cfs =>
    have h₂ : (match ProcessBibleJson.chapterNumChain cfs with
      | Json.null => (Except.ok cd : Except String ChapterDict)
      | cn => do
        let n ← ProcessBibleJson.pyIntOfJson cn
        let vs ← ProcessBibleJson.cleanedVersesOf cfs
        Except.ok (if vs.isEmpty then cd else dictInsert n vs cd)) = Except.ok cd₂ := h
    clear h
    revert h₂
    cases hc : ProcessBibleJson.chapterNumChain cfs with
    | null =>
      intro h
      exact Or.inl (Except.ok.inj h).symm
    | bool b => exact fun h => chapterStep_core h
    | num n => exact fun h => chapterStep_core h
    | str s => exact fun h => chapterStep_core h
    | arr xs => exact fun h => chapterStep_core h
    | obj fs₂ => exact fun h => chapterStep_core h
  | null => cases h
  | bool b => cases h
  | num n => cases h
  | str s => cases h
  | arr xs => cases h
where
  chapterStep_core {cd cd₂ : ChapterDict} {cn : Json} {cfs : List (String × Json)}
      (h : (do
        let n ← ProcessBibleJson.pyIntOfJson cn
        let vs ← ProcessBibleJson.cleanedVersesOf cfs
        Except.ok (if vs.isEmpty then cd else dictInsert n vs cd)) = .ok cd₂) :
      cd₂ = cd ∨ ∃ n vs, cd₂ = dictInsert n vs cd := by
    revert h
    cases hn : ProcessBibleJson.pyIntOfJson cn with
    | error e => intro h; cases h
    | ok n =>
      cases hv : ProcessBibleJson.cleanedVersesOf cfs with
      | error e => intro h; cases h
      | ok vs =>
        intro h
        by_cases he : vs.isEmpty
        · rw [show (do
              let n ← (Except.ok n : Except String Int)
              let vs ← (Except.ok vs : Except String (List String))
              Except.ok (if vs.isEmpty then cd else dictInsert n vs cd))
            = Except.ok (if vs.isEmpty then cd else dictInsert n vs cd) from rfl,
            if_pos he] at h
          exact Or.inl (Except.ok.inj h).symm
        · rw [show (do
              let n ← (Except.ok n : Except String Int)
              let vs ← (Except.ok vs : Except String (List String))
              Except.ok (if vs.isEmpty then cd else dictInsert n vs cd))
            = Except.ok (if vs.isEmpty then cd else dictInsert n vs cd) from rfl,
            if_neg he] at h
          exact Or.inr ⟨n, vs, (Except.ok.inj h).symm⟩

/-- Folding the chapter loop preserves key uniqueness of the chapter dict. -/
theorem foldChapterStep_nodup :
    ∀ {chs : List Json} {cd res : ChapterDict},
      chs.foldlM ProcessBibleJson.chapterStep cd = .ok res →
      (cd.map Prod.fst).Nodup → (res.map Prod.fst).Nodup := by
  intro chs
  induction chs with
  | nil =>
    intro cd res h hn
    cases h
    exact hn
  | cons ch chs ih =>
    intro cd res h hn
    rw [List.foldlM_cons] at h
    cases hs : ProcessBibleJson.chapterStep cd ch with
    | error e => rw [hs] at h; cases h
    | ok cd₂ =>
      rw [hs] at h
      rcases chapterStep_shape hs with hsh | ⟨n, vs, hsh⟩
      · exact ih h (hsh ▸ hn)
      · exact ih h (hsh ▸ nodup_keys_dictInsert n vs hn)

/-- Every chapter dict a book contributes has unique chapter keys. -/
theorem bookContribution_nodup {book : Json} {nm : String} {cd : ChapterDict}
    (h : ProcessBibleJson.bookContribution book = .ok (some (nm, cd))) :
    (cd.map Prod.fst).Nodup := by
  cases book with
  | obj fs =>
    have h₂ : (if truthy (ProcessBibleJson.bookNameChain fs) then
        match ProcessBibleJson.bookNameChain fs with
        | Json.str s => do
          let cd₂ ← ProcessBibleJson.bookChapters fs
          (Except.ok (some (ProcessBibleJson.normalize_book_name s, cd₂))
            : Except String (Option (String × ChapterDict)))
        | _ => Except.error "AttributeError: lower on non-string"
      else Except.ok none) = Except.ok (some (nm, cd)) := h
    clear h
    revert h₂
    cases hb : truthy (ProcessBibleJson.bookNameChain fs) with
    | false =>
      intro h₂
      cases Except.ok.inj h₂
    | true =>
      rw [if_pos rfl]
      cases hn : ProcessBibleJson.bookNameChain fs with
      | str s =>
        dsimp only
        cases hbc : ProcessBibleJson.bookChapters fs with
        | error e => intro h₂; cases h₂
        | ok cd₂ =>
          intro h₂
          have : cd = cd₂ := by
            have := Except.ok.inj h₂
            cases this
            rfl
          rw [this]
          exact foldChapterStep_nodup hbc (by simp)
      | null => intro h₂; cases h₂
      | bool b => intro h₂; cases h₂
      | num n => intro h₂; cases h₂
      | arr xs => intro h₂; cases h₂
      | obj fs₂ => intro h₂; cases h₂
  | null => cases h
  | bool b => cases h
  | num n => cases h
  | str s => cases h
  | arr xs => cases h

/-- The parse invariant: unique book keys, and unique chapter keys inside
every book. -/
def goodDict (d : BibleDict) : Prop :=
  (d.map Prod.fst).Nodup ∧ ∀ p ∈ d, (p.2.map Prod.fst).Nodup

/-- One book iteration preserves the parse invariant. -/
theorem processBook_good {d d₂ : BibleDict} {b : Json}
    (h : ProcessBibleJson.processBook d b = .ok d₂) (hg : goodDict d) :
    goodDict d₂ := by
  have key := processBook_eq d b
  rw [h] at key
  cases hc : ProcessBibleJson.bookContribution b with
  | error e => rw [hc] at key; cases key
  | ok c =>
    rw [hc] at key
    cases c with
    | none =>
      have hd : d₂ = d := Except.ok.inj key
      rw [hd]
      exact hg
    | some p =>
      obtain ⟨nm, cd⟩ := p
      have hd : d₂ = dictInsert nm cd d := Except.ok.inj key
      rw [hd]
      refine ⟨nodup_keys_dictInsert nm cd hg.1, ?_⟩
      intro q hq
      rcases mem_dictInsert hq with hq₂ | hq₂
      · rw [hq₂]
        exact bookContribution_nodup hc
      · exact hg.2 q hq₂

/-- The book loop preserves the parse invariant. -/
theorem parseBooks_good :
    ∀ {books : List Json} {d res : BibleDict},
      books.foldlM ProcessBibleJson.processBook d = .ok res →
      goodDict d → goodDict res := by
  intro books
  induction books with
  | nil =>
    intro d res h hg
    cases h
    exact hg
  | cons b bs ih =>
    intro d res h hg
    rw [List.foldlM_cons] at h
    cases hb : ProcessBibleJson.processBook d b with
    | error e => rw [hb] at h; cases h
    | ok d₂ =>
      rw [hb] at h
      exact ih h (processBook_good hb hg)

/-- Claim C4: in a successful run of the shape (a)/(b) parser, book keys and
each book's chapter keys are unique (each (book, chapter) pair has at most
one entry), and every canonical id resolves to the chapter dict of the last
input book entry canonicalizing to it — later entries completely replace
earlier ones. -/
theorem claim_C4_last_write_wins (books : List Json) (res : BibleDict)
    (h : ProcessBibleJson.parseBibleBooks books = .ok res) :
    ((res.map Prod.fst).Nodup ∧ ∀ p ∈ res, (p.2.map Prod.fst).Nodup) ∧
    ∀ id, dlookup id res = ProcessBibleJson.lastContribution books id := by
  constructor
  · exact parseBooks_good h ⟨List.nodup_nil, by simp⟩
  · intro id
    have h₂ := parse_dlookup books [] res h id
    rw [show dlookup id ([] : BibleDict) = none from rfl, optOr_none_right] at h₂
    exact h₂

/-- Witness for C4: two spellings of Genesis; the normalized structure holds
only the second entry's chapters. -/
theorem claim_C4_witness :
    ProcessBibleJson.parseBibleBooks
        [Json.obj [("book", Json.str "Genesis"), ("chapters", Json.arr
          [Json.obj [("chapter", Json.num 1), ("verses", Json.arr [Json.str "a"])]])],
         Json.obj [("name", Json.str "GENESIS"), ("chapters", Json.arr
          [Json.obj [("chapter", Json.num 2), ("verses", Json.arr [Json.str "b"])]])]]
      = .ok [("genesis", [(2, ["b"])])] ∧
    dlookup "genesis" [("genesis", [(2, ["b"])])]
      = ProcessBibleJson.lastContribution
        [Json.obj [("book", Json.str "Genesis"), ("chapters", Json.arr
          [Json.obj [("chapter", Json.num 1), ("verses", Json.arr [Json.str "a"])]])],
         Json.obj [("name", Json.str "GENESIS"), ("chapters", Json.arr
          [Json.obj [("chapter", Json.num 2), ("verses", Json.arr [Json.str "b"])]])]]
        "genesis" ∧
    ProcessBibleJson.lastContribution
        [Json.obj [("book", Json.str "Genesis"), ("chapters", Json.arr
          [Json.obj [("chapter", Json.num 1), ("verses", Json.arr [Json.str "a"])]])],
         Json.obj [("name", Json.str "GENESIS"), ("chapters", Json.arr
          [Json.obj [("chapter", Json.num 2), ("verses", Json.arr [Json.str "b"])]])]]
        "genesis"
      = some [(2, ["b"])] := by
  refine ⟨rfl, ?_, rfl⟩
  exact (claim_C4_last_write_wins
    [Json.obj [("book", Json.str "Genesis"), ("chapters", Json.arr
          [Json.obj [("chapter", Json.num 1), ("verses", Json.arr [Json.str "a"])]])],
         Json.obj [("name", Json.str "GENESIS"), ("chapters", Json.arr
          [Json.obj [("chapter", Json.num 2), ("verses", Json.arr [Json.str "b"])]])]]
    [("genesis", [(2, ["b"])])] rfl).2 "genesis"


/-- Claim C5: the program exits nonzero exactly when the input file is
missing, the top-level JSON is unparsable, or parsing raises; no exception
escapes (the exit code is a total function of the run); runs whose books or
chapters were merely skipped still exit zero, as the second conjunct shows on
an input with a nameless book and a numberless chapter. -/
theorem claim_C5_exit_codes :
    (∀ (input : ProcessBibleJson.LoadResult) (validate : Bool),
      ProcessBibleJson.mainExitCode input validate = 0 ↔
        ∃ data d, input = .loaded data ∧
          ProcessBibleJson.parseBibleData data = .ok d) ∧
    ProcessBibleJson.mainExitCode
      (.loaded (Json.arr
        [Json.obj [("title", Json.num 1)],
         Json.obj [("book", Json.str "Genesis"), ("chapters", Json.arr
           [Json.obj [("comment", Json.str "no number")],
            Json.obj [("chapter", Json.num 1),
              ("verses", Json.arr [Json.str "a"])]])]]))
      true = 0 := by
  constructor
  · intro input validate
    cases input with
    | missing =>
      constructor
      · intro h
        cases h
      · rintro ⟨data, d, h, _⟩
        cases h
    | badJson =>
      constructor
      · intro h
        cases h
      · rintro ⟨data, d, h, _⟩
        cases h
    | loaded data =>
      have hgoal : ProcessBibleJson.mainExitCode (.loaded data) validate
          = (match ProcessBibleJson.parseBibleData data with
             | Except.error _ => 1
             | Except.ok d =>
               let _ := if validate then ProcessBibleJson.validate_bible_data d else true
               let _ := ProcessBibleJson.total_files d
               0) := rfl
      have hgoal₂ : (match ProcessBibleJson.parseBibleData data with
             | Except.error _ => (1 : Nat)
             | Except.ok d =>
               let _ := if validate then ProcessBibleJson.validate_bible_data d else true
               let _ := ProcessBibleJson.total_files d
               0)
          = (match ProcessBibleJson.parseBibleData data with
             | Except.error _ => 1
             | Except.ok _ => 0) := by
        cases ProcessBibleJson.parseBibleData data <;> rfl
      rw [hgoal, hgoal₂]
      cases hp : ProcessBibleJson.parseBibleData data with
      | error e =>
        constructor
        · intro h
          cases h
        · rintro ⟨data₂, d, h, hp₂⟩
          cases h
          rw [hp] at hp₂
          cases hp₂
      | ok d =>
        constructor
        · intro _
          exact ⟨data, d, rfl, hp⟩
        · intro _
          rfl
  · rfl

/-- When every key parses as an integer, the key decoration succeeds. -/
theorem numKeyed_ok_of_isSome :
    ∀ {ks : List String}, (∀ k ∈ ks, (pyIntOfString k).isSome) →
      ∃ ps, ProcessYourBibles.numKeyed ks = .ok ps := by
  intro ks
  induction ks with
  | nil => intro _; exact ⟨[], rfl⟩
  | cons k ks ih =>
    intro h
    obtain ⟨n, hn⟩ := Option.isSome_iff_exists.mp (h k (by simp))
    obtain ⟨ps, hps⟩ := ih (fun k₂ hk₂ => h k₂ (by simp [hk₂]))
    refine ⟨(n, k) :: ps, ?_⟩
    unfold ProcessYourBibles.numKeyed
    rw [hn, hps]
    rfl

/-- A key listed in a dict has a stored value, and the pair is an entry. -/
theorem lookup_mem_of_mem_keys :
    ∀ {vs : List (String × Json)} {k : String}, k ∈ vs.map Prod.fst →
      ∃ v, vs.lookup k = some v ∧ (k, v) ∈ vs := by
  intro vs
  induction vs with
  | nil => intro k h; simp at h
  | cons p rest ih =>
    obtain ⟨k₂, v₂⟩ := p
    intro k h
    by_cases hk : k = k₂
    · subst hk
      refine ⟨v₂, ?_, by simp⟩
      show (match k == k with
        | true => some v₂
        | false => List.lookup k rest) = some v₂
      rw [beq_self_eq_true]
    · have h₂ : k ∈ rest.map Prod.fst := by simpa [hk] using h
      obtain ⟨v, hv, hmem⟩ := ih h₂
      refine ⟨v, ?_, by simp [hmem]⟩
      show (match k == k₂ with
        | true => some v₂
        | false => List.lookup k rest) = some v
      rw [show (k == k₂) = false from beq_eq_false_iff_ne.mpr hk]
      exact hv

/-- Folding the verse loop over keys of a chapter whose stored texts all
clean to empty appends nothing. -/
theorem userChapterFold_empty {vs : List (String × Json)}
    (hvals : ∀ p ∈ vs, ∃ s, p.2 = Json.str s ∧
      ProcessYourBibles.clean_verse_text s = "") :
    ∀ (ks : List String), (∀ k ∈ ks, k ∈ vs.map Prod.fst) →
      ∀ acc : List String,
      ks.foldlM (fun acc k =>
        match jget vs k with
        | .str t =>
          let c := ProcessYourBibles.clean_verse_text t
          Except.ok (if c = "" then acc else acc ++ [c])
        | _ => Except.error "TypeError: expected string or bytes-like object") acc
      = .ok acc := by
  intro ks
  induction ks with
  | nil => intro _ acc; rfl
  | cons k ks ih =>
    intro hks acc
    rw [List.foldlM_cons]
    obtain ⟨v, hv, hmem⟩ := lookup_mem_of_mem_keys (hks k (by simp))
    obtain ⟨s, hs, hclean⟩ := hvals (k, v) hmem
    rw [show jget vs k = Json.str s by unfold jget; rw [hv]; exact hs]
    dsimp only
    rw [hclean, if_pos rfl]
    exact ih (fun k₂ hk₂ => hks k₂ (by simp [hk₂])) acc

/-- Counterexample to claim C6 as stated: in the shape (a)/(b) parser a
chapter whose single verse "1 " cleans to the empty string is nevertheless
kept (the truthiness filter runs before cleaning), stored as one empty-string
verse, and counted as an emitted chapter file. -/
theorem claim_C6_counterexample :
    ProcessBibleJson.clean_verse_text "1 " = "" ∧
    ProcessBibleJson.parseBibleBooks
        [Json.obj [("book", Json.str "Genesis"), ("chapters", Json.arr
          [Json.obj [("chapter", Json.num 2), ("verses", Json.arr [Json.str "1 "])]])]]
      = .ok [("genesis", [(2, [""])])] ∧
    ProcessBibleJson.total_files [("genesis", [(2, [""])])] = 1 := by
  refine ⟨by decide, rfl, rfl⟩

/-- Claim C6 (amended): in the shape (c) parser a chapter whose verse texts
all clean to empty yields no verses, is omitted from the structure, and
contributes no output file; in the shape (a)/(b) parser only raw-falsy verses
are dropped, so a chapter whose truthy verse "1 " cleans to empty is kept as
an empty-string verse and still counted. -/
theorem claim_C6_amended_empty_chapters :
    (∀ vs : List (String × Json),
      (vs.all fun p => (pyIntOfString p.1).isSome) = true →
      (vs.all fun p => match p.2 with
        | .str s => ProcessYourBibles.clean_verse_text s == ""
        | _ => false) = true →
      ProcessYourBibles.parseUserChapterVerses (.obj vs) = .ok []) ∧
    (∀ (nm : String) (d : BibleDict) (cnS : String) (n : Int) (verses : Json),
      pyIntOfString cnS = some n →
      ProcessYourBibles.parseUserChapterVerses verses = .ok [] →
      ProcessYourBibles.processUserChapter nm d (cnS, verses) = .ok d) ∧
    ProcessYourBibles.parseUserBible
        (Json.obj [("Genesis", Json.obj [("1", Json.obj [("1", Json.str " \n ")])])])
      = .ok [("genesis", [])] ∧
    ProcessYourBibles.total_files [("genesis", [])] = 0 ∧
    ProcessBibleJson.clean_verse_text "1 " = "" ∧
    ProcessBibleJson.parseBibleBooks
        [Json.obj [("book", Json.str "Genesis"), ("chapters", Json.arr
          [Json.obj [("chapter", Json.num 1), ("verses", Json.arr [Json.str "1 "])]])]]
      = .ok [("genesis", [(1, [""])])] ∧
    ProcessBibleJson.total_files [("genesis", [(1, [""])])] = 1 := by
  refine ⟨?_, ?_, rfl, rfl, by decide, rfl, rfl⟩
  · intro vs hkeys hvals
    have hkeys₂ : ∀ k ∈ vs.map Prod.fst, (pyIntOfString k).isSome := by
      intro k hk
      obtain ⟨p, hp, hpk⟩ := List.mem_map.mp hk
      have := List.all_eq_true.mp hkeys p hp
      rw [← hpk]
      exact this
    have hvals₂ : ∀ p ∈ vs, ∃ s, p.2 = Json.str s ∧
        ProcessYourBibles.clean_verse_text s = "" := by
      intro p hp
      have := List.all_eq_true.mp hvals p hp
      revert this
      cases hps : p.2 with
      | str s =>
        intro hbeq
        exact ⟨s, rfl, by simpa using hbeq⟩
      | null => intro hfalse; cases hfalse
      | bool b => intro hfalse; cases hfalse
      | num n => intro hfalse; cases hfalse
      | arr xs => intro hfalse; cases hfalse
      | obj fs => intro hfalse; cases hfalse
    obtain ⟨ps, hps⟩ := numKeyed_ok_of_isSome hkeys₂
    have hsort : ProcessYourBibles.sortNumeric (vs.map Prod.fst)
        = .ok ((ps.insertionSort (fun p q => p.1 ≤ q.1)).map Prod.snd) := by
      unfold ProcessYourBibles.sortNumeric
      rw [hps]
      rfl
    have hperm := (sortNumeric_spec hsort).1
    show (do
      let ks ← ProcessYourBibles.sortNumeric (vs.map Prod.fst)
      ks.foldlM (fun acc k =>
        match jget vs k with
        | .str t =>
          let c := ProcessYourBibles.clean_verse_text t
          Except.ok (if c = "" then acc else acc ++ [c])
        | _ => Except.error "TypeError: expected string or bytes-like object") [])
      = .ok []
    rw [hsort]
    exact userChapterFold_empty hvals₂ _
      (fun k hk => hperm.subset hk) []
  · intro nm d cnS n verses h₁ h₂
    unfold ProcessYourBibles.processUserChapter
    dsimp only
    rw [h₁, h₂]
    rfl

/-- Witness for C6: a chapter whose only verse is whitespace parses to no
verses and is omitted; a numeric chapter key with an all-empty verse dict
leaves the structure unchanged. -/
theorem claim_C6_witness :
    (([("1", Json.str " \n ")] : List (String × Json)).all
        fun p => (pyIntOfString p.1).isSome) = true ∧
    (([("1", Json.str " \n ")] : List (String × Json)).all
        fun p => match p.2 with
        | .str s => ProcessYourBibles.clean_verse_text s == ""
        | _ => false) = true ∧
    ProcessYourBibles.parseUserChapterVerses
        (Json.obj [("1", Json.str " \n ")]) = .ok [] ∧
    ProcessYourBibles.processUserChapter "genesis" [("genesis", [])]
        ("3", Json.obj [("1", Json.str " ")]) = .ok [("genesis", [])] :=
  ⟨by decide, by decide,
   claim_C6_amended_empty_chapters.1 [("1", Json.str " \n ")] (by decide) (by decide),
   claim_C6_amended_empty_chapters.2.1 "genesis" [("genesis", [])] "3" 3
     (Json.obj [("1", Json.str " ")]) rfl rfl⟩

/-- Counterexample to claim C10 as stated: a chapter whose chapter-number
field is 0 is not always skipped. When the 0 sits in the `id` field — the
last alias in the or-chain — the chain yields 0 itself rather than `None`,
the `is None` skip test fails, and the chapter is emitted as chapter 0. -/
theorem claim_C10_counterexample :
    ProcessBibleJson.chapterNumChain [("id", Json.num 0)] = Json.num 0 ∧
    ProcessBibleJson.parseBibleBooks
        [Json.obj [("book", Json.str "G"), ("chapters", Json.arr
          [Json.obj [("id", Json.num 0), ("verses", Json.arr [Json.str "x"])]])]]
      = .ok [("g", [(0, ["x"])])] := by
  refine ⟨rfl, rfl⟩

/-- Claim C10 (amended): falsy fields are swallowed by the or-chains, so a
book with an empty-string name is skipped, a chapter whose `chapter` field is
0 (later aliases absent) resolves to `None` and is skipped, and a falsy
verses field yields an empty verse list (dropping the chapter) — but a
chapter whose `id` field is 0 resolves to 0, not `None`, and is emitted as
chapter 0, because the skip test is `is None`, not truthiness. -/
theorem claim_C10_amended_falsy_fields :
    ProcessBibleJson.bookNameChain [("bookName", Json.str "")] = Json.str "" ∧
    ProcessBibleJson.parseBibleBooks
        [Json.obj [("bookName", Json.str ""), ("chapters", Json.arr
          [Json.obj [("chapter", Json.num 1), ("verses", Json.arr [Json.str "x"])]])]]
      = .ok [] ∧
    ProcessBibleJson.parseBibleBooks
        [Json.obj [("name", Json.str ""), ("chapters", Json.arr
          [Json.obj [("chapter", Json.num 1), ("verses", Json.arr [Json.str "x"])]])]]
      = .ok [] ∧
    ProcessBibleJson.chapterNumChain [("chapter", Json.num 0)] = Json.null ∧
    ProcessBibleJson.parseBibleBooks
        [Json.obj [("book", Json.str "G"), ("chapters", Json.arr
          [Json.obj [("chapter", Json.num 0), ("verses", Json.arr [Json.str "x"])]])]]
      = .ok [("g", [])] ∧
    ProcessBibleJson.chapterNumChain [("id", Json.num 0)] = Json.num 0 ∧
    ProcessBibleJson.parseBibleBooks
        [Json.obj [("book", Json.str "G"), ("chapters", Json.arr
          [Json.obj [("id", Json.num 0), ("verses", Json.arr [Json.str "x"])]])]]
      = .ok [("g", [(0, ["x"])])] ∧
    ProcessBibleJson.versesOf [("verses", Json.arr [])] = [] ∧
    ProcessBibleJson.versesOf [("verses", Json.num 0)] = [] ∧
    ProcessBibleJson.parseBibleBooks
        [Json.obj [("book", Json.str "G"), ("chapters", Json.arr
          [Json.obj [("chapter", Json.num 1), ("verses", Json.num 0)]])]]
      = .ok [("g", [])] := by
  refine ⟨rfl, rfl, rfl, rfl, rfl, rfl, rfl, rfl, rfl, rfl⟩
